import Mathlib

/-!
Verification of the ccafct repository: a shallow embedding of the harm
function, the workload-plan derivation (`NewTest`), the flow byte
accounting, the stats analyzer, the FCT server handler, and the command
executor, together with theorems settling the specification's claims.

Go `float64` arithmetic is modelled over `ℚ` (for the harm function,
whose relevant computations are exact) and over `ℝ` (for the logarithm /
exponential calibration, where the spec's "within floating-point
tolerance" becomes exact real equality).  Go `int64` arithmetic is
modelled by `ℤ`, with Go's truncated division rendered as `Int.tdiv`.
-/

namespace harm

/-- Models the Go `harm.Harm` value space (a `float64`): either a finite
value or the `Infinity` sentinel `math.Inf(+1)`. -/
inductive Harm (α : Type) where
  | val (h : α)
  | infinity
deriving DecidableEq

/-- `Infinity` is the harm returned when the workload is zero, and is
invalid (Go: `var Infinity = Harm(math.Inf(+1))`). -/
def Infinity {α : Type} : Harm α := Harm.infinity

/-- Go `harm.LessIsBetter(solo, workload float64) Harm`:
```
if workload == 0 { return Infinity }
if workload < solo { return 0 }
return Harm((workload - solo) / workload)
``` -/
def LessIsBetter {α : Type} [LinearOrderedField α] (solo workload : α) : Harm α :=
  if workload = 0 then Infinity
  else if workload < solo then Harm.val 0
  else Harm.val ((workload - solo) / workload)

end harm

namespace ccafct

/-- Go `DefaultDuration = 10 * time.Second`, in nanoseconds. -/
def DefaultDuration : ℤ := 10 * 1000000000

/-- Go `DefaultMeanArrival = 200 * time.Millisecond`, in nanoseconds. -/
def DefaultMeanArrival : ℤ := 200 * 1000000

/-- `Params.init`: `if p.Duration == 0 { p.Duration = DefaultDuration }`. -/
def initDuration (d : ℤ) : ℤ := if d = 0 then DefaultDuration else d

/-- `Params.init`: `if p.MeanArrival == 0 { p.MeanArrival = DefaultMeanArrival }`. -/
def initMeanArrival (a : ℤ) : ℤ := if a = 0 then DefaultMeanArrival else a

/-- `NewTest`: `t.Flows = int(t.Duration / t.MeanArrival)` on the
post-`init` parameters.  Go division of `time.Duration` (an `int64`) is
truncated division, `Int.tdiv`. -/
def Flows (d a : ℤ) : ℤ := (initDuration d).tdiv (initMeanArrival a)

/-- `NewTest`: `mu := (log5 + log95) / 2` with `log5 = math.Log(float64(t.LenP5))`
and `log95 = math.Log(float64(t.LenP95))`. -/
noncomputable def mu (p5 p95 : ℝ) : ℝ := (Real.log p5 + Real.log p95) / 2

/-- `NewTest`: `sigma := (log95 - log5) / (2 * 1.645)`. -/
noncomputable def sigma (p5 p95 : ℝ) : ℝ := (Real.log p95 - Real.log p5) / (2 * 1.645)

/-- `NewTest`: `mfl := math.Exp(mu + 0.5*math.Pow(sigma, 2))`, the mean
flow length of the calibrated lognormal distribution (as a `float64`,
before the truncating store into the `int` field `MeanFlowLen`). -/
noncomputable def mfl (p5 p95 : ℝ) : ℝ := Real.exp (mu p5 p95 + 0.5 * (sigma p5 p95) ^ 2)

/-- `NewTest`: `t.MeanFlowLen = int(mfl)`; Go float-to-int conversion
truncates toward zero, and `mfl > 0`, so this is the floor. -/
noncomputable def MeanFlowLen (p5 p95 : ℝ) : ℤ := ⌊mfl p5 p95⌋

/-- `NewTest`: `rps := float64(1 * time.Second / t.MeanArrival)` — the
(truncated) integer quotient of one second by the post-`init` mean
arrival interval, in nanoseconds. -/
def rps (a : ℤ) : ℤ := (1000000000 : ℤ).tdiv (initMeanArrival a)

/-- `NewTest`: `t.Bandwidth = bitrate.Bitrate(rps * mfl * 8)`, as the
real-valued product before the truncating conversion to `Bitrate`. -/
noncomputable def Bandwidth (a : ℤ) (p5 p95 : ℝ) : ℝ :=
  (rps a : ℝ) * mfl p5 p95 * 8

/-- Modelled from the spec's words, for comparison with `Bandwidth`:
"Estimated offered bandwidth = (flow-count/duration) × mean-flow-size ×
8 bits", with the duration converted from nanoseconds to seconds. -/
noncomputable def specBandwidth (d a : ℤ) (p5 p95 : ℝ) : ℝ :=
  ((Flows d a : ℝ) / ((d : ℝ) / 1000000000)) * mfl p5 p95 * 8

/-- Go `countWriter` ("counts and discards bytes"): `Bytes unit.Bytes`
is an `int64` count. -/
structure countWriter where
  Bytes : ℤ
deriving DecidableEq

/-- `countWriter.Write(p []byte)`: `w.Bytes += unit.Bytes(len(p));
return len(p), nil` — the new writer state, the reported count and the
(always absent) error. -/
def countWriter.write (w : countWriter) (p : List UInt8) : countWriter × ℕ × Option String :=
  (⟨w.Bytes + p.length⟩, p.length, none)

/-- `doRequest` drains the response with `resp.Write(cw)`.  Per the Go
standard library, `http.Response.Write` writes the response in HTTP/1.x
wire format: the status line and headers followed by the body.  Both
parts pass through the `countWriter`. -/
def respWrite (w : countWriter) (statusAndHeaders body : List UInt8) : countWriter :=
  ((w.write statusAndHeaders).1.write body).1

/-- `doRequest`: `cw := new(countWriter); resp.Write(cw); flow.Length =
cw.Bytes` — the byte length recorded in the `Flow` appended to the log. -/
def recordedLength (statusAndHeaders body : List UInt8) : ℤ :=
  (respWrite ⟨0⟩ statusAndHeaders body).Bytes

/-- Go float-to-int conversion (`metric.Duration(f)` for `float64 f`):
truncation toward zero. -/
noncomputable def f64toInt (f : ℝ) : ℤ := if 0 ≤ f then ⌊f⌋ else ⌈f⌉

/-- `metric.FCT`: an embedded `metric.Duration` (an `int64` of
nanoseconds) plus a `harm.Harm`. -/
structure FCT where
  Duration : ℤ
  Harm : harm.Harm ℝ

/-- `metric.FCTFromFloat64(f)`: `FCT{Duration(f), 0}` — harm is the zero
value, meaning "no harm computed". -/
noncomputable def FCTFromFloat64 (f : ℝ) : FCT := ⟨f64toInt f, harm.Harm.val 0⟩

/-- `ccafct.Stats`: geometric mean, median and 95th percentile FCTs. -/
structure Stats where
  GeoMean : FCT
  Median : FCT
  P95 : FCT

/-- `gonum stat.GeometricMean(x, nil)`: `exp((Σ log x_i) / n)`. -/
noncomputable def geometricMean (x : List ℝ) : ℝ :=
  Real.exp ((x.map Real.log).sum / x.length)

/-- `gonum stat.Quantile(p, stat.Empirical, x, nil)` on sorted `x` with
unit weights: the first `x[i]` whose cumulative weight `i+1` reaches
`p * n`, i.e. the element at index `⌈p·n⌉ − 1` (clamped at 0). -/
noncomputable def empiricalQuantile (p : ℝ) (x : List ℝ) : ℝ :=
  x.getD (⌈p * x.length⌉ - 1).toNat 0

/-- `ccafct.Analyze(d Data) (stats Stats, err error)`:
```
durs := d.FlowDurations()
if len(durs) == 0 { err = ...; return }
f := ...; sort.Float64s(f)
geomean := stat.GeometricMean(f, nil)
median := stat.Quantile(0.5, stat.Empirical, f, nil)
p95 := stat.Quantile(0.95, stat.Empirical, f, nil)
stats = Stats{FCTFromFloat64(geomean), FCTFromFloat64(median), FCTFromFloat64(p95)}
```
The Go `(stats, err)` pair with early return is rendered as `Except`.
The input is the list of per-flow durations (as `float64` nanoseconds). -/
noncomputable def Analyze (durs : List ℝ) : Except String Stats :=
  if durs.length = 0 then
    Except.error "unable to analyze empty flow durations"
  else
    let f := durs.insertionSort (fun a b => a ≤ b)
    let geomean := geometricMean f
    let median := empiricalQuantile 0.5 f
    let p95 := empiricalQuantile 0.95 f
    Except.ok ⟨FCTFromFloat64 geomean, FCTFromFloat64 median, FCTFromFloat64 p95⟩

/-- Helper for `parseInt64`: a nonempty all-digit character list read as
a decimal natural number, `none` otherwise. -/
def digitsToNat (l : List Char) : Option ℕ :=
  if l = [] ∨ ¬ l.all Char.isDigit then none
  else some (l.foldl (fun a c => a * 10 + (c.toNat - 48)) 0)

/-- Go `strconv.ParseInt(s, 10, 64)`: an optional sign followed by a
nonempty run of decimal digits, with the value required to fit in an
`int64`; any other input (including the empty string) yields an error,
rendered as `none`. -/
def parseInt64 (s : String) : Option ℤ :=
  match s.data with
  | [] => none
  | c :: rest =>
    let signed : Bool × List Char :=
      if c = '-' then (true, rest)
      else if c = '+' then (false, rest)
      else (false, c :: rest)
    match digitsToNat signed.2 with
    | none => none
    | some n =>
      let v : ℤ := if signed.1 then -(n : ℤ) else (n : ℤ)
      if v < -(2 ^ 63) ∨ 2 ^ 63 - 1 < v then none else some v

/-- The write loop of `Server.handleFCT`, as the list of chunk lengths
written (the chunk contents are filler bytes from the server's
zero-initialized buffer):
```
for r := flen; r > 0; r -= int64(n) {
    l := s.BufLen
    if r < int64(s.BufLen) { l = int(r) }
    n, err = w.Write(s.buf[:l])
    ...
}
```
modelled on the error-free path where each `Write` reports `n = l`.
`Server.init` guarantees `BufLen ≥ 1` (zero is replaced by the default
32768); the `bufLen = 0` guard below is a totality artifact outside
that invariant. -/
def writeChunks (bufLen r : ℕ) : List ℕ :=
  if h : r = 0 ∨ bufLen = 0 then []
  else
    have hr : 0 < r := Nat.pos_of_ne_zero (fun hh => h (Or.inl hh))
    have hb : 0 < bufLen := Nat.pos_of_ne_zero (fun hh => h (Or.inr hh))
    have : r - min bufLen r < r := by
      have : 0 < min bufLen r := lt_min hb hr
      omega
    min bufLen r :: writeChunks bufLen (r - min bufLen r)
termination_by r

/-- The observable outcome of `Server.handleFCT`: either an
`http.Error(w, msg, http.StatusBadRequest)` or a streamed body given by
its chunk lengths. -/
inductive HandlerResult where
  | badRequest (msg : String)
  | body (chunks : List ℕ)
deriving DecidableEq

/-- `Server.handleFCT` for a request with no CCA header (so that
`setSockOpts` is a no-op returning `nil`), given the post-`init` buffer
length and the value of `r.Header.Get(FlowLengthHeader)` (which is `""`
when the header is absent):
```
if fstr = r.Header.Get(FlowLengthHeader); fstr == "" { 400 }
if flen, err = strconv.ParseInt(fstr, 10, 64); err != nil || flen < 0 { 400 }
<write loop>
``` -/
def handleFCT (bufLen : ℕ) (fstr : String) : HandlerResult :=
  if fstr = "" then
    HandlerResult.badRequest "missing header"
  else
    match parseInt64 fstr with
    | none => HandlerResult.badRequest "invalid flow length"
    | some flen =>
      if flen < 0 then HandlerResult.badRequest "invalid flow length"
      else HandlerResult.body (writeChunks bufLen flen.toNat)

end ccafct

namespace executor

/-- The fields of Go `executor.Spec` that affect the executor's tracked
state: `Stdin` (a payload or `nil`), `Background`, `NoWait` and
`IgnoreErrors`.  The remaining fields (`Context`, `Log*`, `Emit*`) only
select logging/echoing of output and which `exec.Cmd` constructor is
used, neither of which is observable in this model. -/
structure Spec where
  Stdin : Option (List UInt8) := none
  Background : Bool := false
  NoWait : Bool := false
  IgnoreErrors : Bool := false
deriving DecidableEq

/-- A tracked `executor.Job`: its `Spec` classification fields, the
process's eventual exit outcome (`Command.Wait`'s error, fixed by the
command's behavior), the recorded `Err`, and whether `Command.Wait` has
been called for it (the join). -/
structure Job where
  Background : Bool
  NoWait : Bool
  IgnoreErrors : Bool
  exitErr : Option String
  Err : Option String
  waitedOn : Bool
deriving DecidableEq

/-- The environment's behavior for one submitted command: whether each
pipe creation fails, whether `cmd.Start()` fails, and the eventual
`Command.Wait` outcome of the process. -/
structure CmdBehavior where
  stdinPipeErr : Option String := none
  stdoutPipeErr : Option String := none
  stderrPipeErr : Option String := none
  startErr : Option String := none
  runErr : Option String := none
deriving DecidableEq

/-- Go `executor.Executor` state: the flags, the accumulated `Job` list,
the `Errors` counter, and the `waited` latch. -/
structure Executor where
  IgnoreErrors : Bool
  NoLogErrors : Bool
  Job : List executor.Job
  Errors : ℕ
  waited : Bool
deriving DecidableEq

/-- `Executor.onError(job, err)`: `if !job.IgnoreErrors { job.Err = err;
e.Errors++ }` (the logging branch is not observable here). -/
def onError (e : Executor) (j : Job) (err : String) : Executor × Job :=
  if j.IgnoreErrors then (e, j)
  else ({ e with Errors := e.Errors + 1 }, { j with Err := some err })

/-- A `RunCommand` path that ends in `e.onError(job, err); return`: the
job was already appended to `e.Job` (by pointer, so the list holds its
final state).  `started` records whether `cmd.Start()` succeeded. -/
def failJob (e : Executor) (j : Job) (err : String) (started : Bool) :
    Executor × Option Job × Bool :=
  let p := onError e j err
  ({ p.1 with Job := p.1.Job ++ [p.2] }, some p.2, started)

/-- A `RunCommand` path that returns without an error. -/
def addJob (e : Executor) (j : Job) (started : Bool) :
    Executor × Option Job × Bool :=
  ({ e with Job := e.Job ++ [j] }, some j, started)

/-- `Executor.RunCommand(cmd, spec)`, returning the updated executor,
the returned `*Job` (`none` models the `nil` pointer of the named
return), and whether the command's process was started:
```
if e.Job == nil { e.Job = make([]*Job, 0) }        // nil list ≡ empty list here
if e.Errors > 0 && !e.IgnoreErrors { return }      // job is nil
...
job = &Job{Command: cmd, Spec: spec}
e.Job = append(e.Job, job)
if job.Stdin != nil { if stdin, err = cmd.StdinPipe(); err != nil { e.onError(job, err); return } }
if stdout, err = cmd.StdoutPipe(); err != nil { e.onError(job, err); return }
if stderr, err = cmd.StderrPipe(); err != nil { e.onError(job, err); return }
if err = cmd.Start(); err != nil { e.onError(job, err); return }
if job.Background { job.slurp(...); return }
job.slurp(...); job.Wait()
if err = job.Command.Wait(); err != nil { e.onError(job, err); return }
``` -/
def runCommand (e : Executor) (spec : Spec) (b : CmdBehavior) :
    Executor × Option Job × Bool :=
  if 0 < e.Errors ∧ e.IgnoreErrors = false then (e, none, false)
  else
    let j : Job := ⟨spec.Background, spec.NoWait, spec.IgnoreErrors, b.runErr, none, false⟩
    if spec.Stdin.isSome ∧ b.stdinPipeErr.isSome then
      failJob e j (b.stdinPipeErr.getD "") false
    else if b.stdoutPipeErr.isSome then
      failJob e j (b.stdoutPipeErr.getD "") false
    else if b.stderrPipeErr.isSome then
      failJob e j (b.stderrPipeErr.getD "") false
    else if b.startErr.isSome then
      failJob e j (b.startErr.getD "") false
    else if spec.Background then
      addJob e j true
    else
      match b.runErr with
      | some err => failJob e { j with waitedOn := true } err true
      | none => addJob e { j with waitedOn := true } true

/-- `Executor.RunSpec(spec, cmd, arg...)`: builds the `exec.Cmd` and
delegates to `RunCommand` (command-line construction is not modelled). -/
def RunSpec (e : Executor) (spec : Spec) (b : CmdBehavior) :
    Executor × Option Job × Bool :=
  runCommand e spec b

/-- `Executor.RunSpecf(spec, format, arg...)`: formats the command line
and delegates to `RunSpec`. -/
def RunSpecf (e : Executor) (spec : Spec) (b : CmdBehavior) :
    Executor × Option Job × Bool :=
  RunSpec e spec b

/-- `Executor.Run(cmd, arg...)`: `RunSpec(Spec{}, ...)`. -/
def Run (e : Executor) (b : CmdBehavior) : Executor × Option Job × Bool :=
  RunSpec e {} b

/-- `Executor.Runf(format, arg...)`: `RunSpecf(Spec{}, ...)`. -/
def Runf (e : Executor) (b : CmdBehavior) : Executor × Option Job × Bool :=
  RunSpecf e {} b

/-- `Executor.Emit(cmd, arg...)`: `RunSpec(Spec{Emit: true}, ...)` — the
`Emit` flag only echoes output and is not otherwise observable. -/
def Emit (e : Executor) (b : CmdBehavior) : Executor × Option Job × Bool :=
  RunSpec e {} b

/-- The per-job effect of the `Executor.Wait` loop body:
```
if !j.Background || j.NoWait { continue }
j.Wait()
if err := j.Command.Wait(); err != nil { e.onError(j, err) }
``` -/
def waitJob (j : Job) : Job :=
  if !j.Background || j.NoWait then j
  else
    match j.exitErr with
    | none => { j with waitedOn := true }
    | some err =>
      if j.IgnoreErrors then { j with waitedOn := true }
      else { j with waitedOn := true, Err := some err }

/-- The per-job contribution of the `Executor.Wait` loop to `e.Errors`
(via `onError`, which skips jobs whose own `IgnoreErrors` is set). -/
def waitErrInc (j : Job) : ℕ :=
  if !j.Background || j.NoWait then 0
  else
    match j.exitErr with
    | none => 0
    | some _ => if j.IgnoreErrors then 0 else 1

/-- `Executor.Wait()`:
```
if e.waited { return }
e.waited = true
for _, j := range e.Job { <loop body above> }
```
The single pass over the job list is decomposed into the per-job state
update `waitJob` and the error-count contribution `waitErrInc`. -/
def Wait (e : Executor) : Executor :=
  if e.waited then e
  else
    { e with
      waited := true
      Job := e.Job.map waitJob
      Errors := e.Errors + (e.Job.map waitErrInc).sum }

end executor

/-- C1 counterexample: at `solo = 0`, `workload = 1` neither the
sentinel branch nor the clamp branch applies, and `LessIsBetter`
returns `(1 − 0) / 1 = 1`, which does not lie in `[0, 1)` as the claim
asserts of the else branch. -/
theorem C1_counterexample :
    harm.LessIsBetter (0 : ℚ) 1 = harm.Harm.val 1 ∧ ¬ ((1 : ℚ) < 1) := by
  refine ⟨?_, lt_irrefl 1⟩
  norm_num [harm.LessIsBetter]

/-- C1 (amended): for `solo ≥ 0`, `workload ≥ 0`, `LessIsBetter`
returns the invalid/infinite sentinel when `workload = 0`, returns 0
when `workload < solo`, and otherwise returns
`(workload − solo) / workload`, a value in `[0, 1]` that is never
negative and lies in `[0, 1)` whenever `solo > 0`; in particular
`harm(100,100) = 0`, `harm(100,150) = 1/3`, `harm(100,50) = 0`, and
`harm(100,0)` is the sentinel. -/
theorem C1_lessIsBetter (solo workload : ℚ) (hs : 0 ≤ solo) (hw : 0 ≤ workload) :
    (workload = 0 → harm.LessIsBetter solo workload = harm.Infinity) ∧
    (workload ≠ 0 → workload < solo →
      harm.LessIsBetter solo workload = harm.Harm.val 0) ∧
    (workload ≠ 0 → ¬ workload < solo →
      harm.LessIsBetter solo workload = harm.Harm.val ((workload - solo) / workload) ∧
      0 ≤ (workload - solo) / workload ∧
      (workload - solo) / workload ≤ 1 ∧
      (0 < solo → (workload - solo) / workload < 1)) ∧
    harm.LessIsBetter (100 : ℚ) 100 = harm.Harm.val 0 ∧
    harm.LessIsBetter (100 : ℚ) 150 = harm.Harm.val (1 / 3) ∧
    harm.LessIsBetter (100 : ℚ) 50 = harm.Harm.val 0 ∧
    harm.LessIsBetter (100 : ℚ) 0 = harm.Infinity := by
  refine ⟨?_, ?_, ?_, by norm_num [harm.LessIsBetter], by norm_num [harm.LessIsBetter],
    by norm_num [harm.LessIsBetter], by norm_num [harm.LessIsBetter, harm.Infinity]⟩
  · intro h
    unfold harm.LessIsBetter
    rw [if_pos h]
  · intro h hlt
    unfold harm.LessIsBetter
    rw [if_neg h, if_pos hlt]
  · intro h hnlt
    have hwpos : 0 < workload := lt_of_le_of_ne hw (Ne.symm h)
    have hsw : solo ≤ workload := not_lt.mp hnlt
    refine ⟨?_, ?_, ?_, ?_⟩
    · unfold harm.LessIsBetter
      rw [if_neg h, if_neg hnlt]
    · exact div_nonneg (by linarith) hwpos.le
    · rw [div_le_one hwpos]
      linarith
    · intro hspos
      rw [div_lt_one hwpos]
      linarith

/-- C1 witness: the amended theorem applied at `solo = 100`,
`workload = 150` yields the clamped-ratio value `1/3`. -/
theorem C1_lessIsBetter_witness :
    harm.LessIsBetter (100 : ℚ) 150 = harm.Harm.val (1 / 3) :=
  (C1_lessIsBetter 100 150 (by norm_num) (by norm_num)).2.2.2.2.1

/-- C2: for any positive duration and positive mean arrival interval
(in nanoseconds), the flow count `NewTest` derives equals
`⌊duration / mean-arrival-interval⌋`. -/
theorem C2_flows (d a : ℤ) (hd : 0 < d) (ha : 0 < a) :
    ccafct.Flows d a = ⌊(d : ℚ) / (a : ℚ)⌋ := by
  unfold ccafct.Flows ccafct.initDuration ccafct.initMeanArrival
  rw [if_neg hd.ne', if_neg ha.ne', Int.tdiv_eq_ediv hd.le ha.le]
  have h1 : ((a.toNat : ℕ) : ℚ) = (a : ℚ) := by
    rw [← Int.cast_natCast, Int.toNat_of_nonneg ha.le]
  rw [← h1, Rat.floor_intCast_div_natCast, Int.toNat_of_nonneg ha.le]

/-- C2 witness: a 10-second test with a 300 ms mean arrival interval
yields `⌊10s / 300ms⌋ = 33` flows. -/
theorem C2_flows_witness :
    ccafct.Flows 10000000000 300000000 = ⌊(10000000000 : ℚ) / (300000000 : ℚ)⌋ ∧
    ccafct.Flows 10000000000 300000000 = 33 :=
  ⟨C2_flows 10000000000 300000000 (by norm_num) (by norm_num), by decide⟩

/-- C3: for `0 < p5 < p95`, the `μ` and `σ` computed by `NewTest`
recover the two percentiles exactly — `exp(μ − 1.645σ) = p5` and
`exp(μ + 1.645σ) = p95` — and the derived mean flow size is
`exp(μ + σ²/2)` (real-valued model, so "floating-point tolerance"
becomes exact equality). -/
theorem C3_calibration (p5 p95 : ℝ) (h5 : 0 < p5) (h59 : p5 < p95) :
    Real.exp (ccafct.mu p5 p95 - 1.645 * ccafct.sigma p5 p95) = p5 ∧
    Real.exp (ccafct.mu p5 p95 + 1.645 * ccafct.sigma p5 p95) = p95 ∧
    ccafct.mfl p5 p95 = Real.exp (ccafct.mu p5 p95 + (ccafct.sigma p5 p95) ^ 2 / 2) := by
  have h95 : 0 < p95 := h5.trans h59
  have e1 : ccafct.mu p5 p95 - 1.645 * ccafct.sigma p5 p95 = Real.log p5 := by
    unfold ccafct.mu ccafct.sigma
    ring
  have e2 : ccafct.mu p5 p95 + 1.645 * ccafct.sigma p5 p95 = Real.log p95 := by
    unfold ccafct.mu ccafct.sigma
    ring
  refine ⟨?_, ?_, ?_⟩
  · rw [e1, Real.exp_log h5]
  · rw [e2, Real.exp_log h95]
  · unfold ccafct.mfl
    congr 1
    ring

/-- C3 witness: the calibration identities at `p5 = 1`, `p95 = 2`. -/
theorem C3_calibration_witness :
    Real.exp (ccafct.mu 1 2 - 1.645 * ccafct.sigma 1 2) = 1 ∧
    Real.exp (ccafct.mu 1 2 + 1.645 * ccafct.sigma 1 2) = 2 ∧
    ccafct.mfl 1 2 = Real.exp (ccafct.mu 1 2 + (ccafct.sigma 1 2) ^ 2 / 2) :=
  C3_calibration 1 2 (by norm_num) (by norm_num)

/-- C4 counterexample: with a 10 s duration and a 300 ms mean arrival
interval (and the default flow-size percentiles), `NewTest` computes
`rps = trunc(1s / 300ms) = 3` requests per second, while
`flow-count / duration = 33 / 10s = 3.3` per second, so the bandwidth
the code stores differs from the claim's
`(flow-count / duration) × mean-flow-size × 8`. -/
theorem C4_counterexample :
    ccafct.Bandwidth 300000000 65536 2097152 ≠
      ccafct.specBandwidth 10000000000 300000000 65536 2097152 := by
  intro h
  have hm : 0 < ccafct.mfl 65536 2097152 := Real.exp_pos _
  have h3 : ccafct.rps 300000000 = 3 := by decide
  have h33 : ccafct.Flows 10000000000 300000000 = 33 := by decide
  unfold ccafct.Bandwidth ccafct.specBandwidth at h
  rw [h3, h33] at h
  norm_num at h
  nlinarith [hm, h]

/-- C4 (amended): the estimated offered bandwidth is
`trunc(1 second / mean-arrival-interval) × mean-flow-size × 8` bits per
second; this agrees with the claim's
`(flow-count / duration) × mean-flow-size × 8` whenever the mean
arrival interval evenly divides both one second and the test duration. -/
theorem C4_bandwidth (d a : ℤ) (p5 p95 : ℝ) (hd : 0 < d) (ha : 0 < a)
    (hsec : a ∣ 1000000000) (hdur : a ∣ d) :
    ccafct.Bandwidth a p5 p95 = ccafct.specBandwidth d a p5 p95 := by
  obtain ⟨m, hm⟩ := hsec
  obtain ⟨k, hk⟩ := hdur
  have hkpos : 0 < k := by nlinarith [hd, ha, hk.symm.le, hk.le]
  have hL : ccafct.Flows d a = k := by
    unfold ccafct.Flows ccafct.initDuration ccafct.initMeanArrival
    rw [if_neg hd.ne', if_neg ha.ne', Int.tdiv_eq_ediv hd.le ha.le, hk,
      Int.mul_ediv_cancel_left k ha.ne']
  have hR : ccafct.rps a = m := by
    unfold ccafct.rps ccafct.initMeanArrival
    rw [if_neg ha.ne', Int.tdiv_eq_ediv (by norm_num) ha.le, hm,
      Int.mul_ediv_cancel_left m ha.ne']
  have ha' : (a : ℝ) ≠ 0 := Int.cast_ne_zero.mpr ha.ne'
  have hk' : (k : ℝ) ≠ 0 := Int.cast_ne_zero.mpr hkpos.ne'
  have hd' : (d : ℝ) = (a : ℝ) * (k : ℝ) := by
    rw [hk]
    push_cast
    ring
  have h19 : (1000000000 : ℝ) = (a : ℝ) * (m : ℝ) := by
    rw [show ((1000000000 : ℝ)) = ((1000000000 : ℤ) : ℝ) by norm_num, hm]
    push_cast
    ring
  unfold ccafct.Bandwidth ccafct.specBandwidth
  rw [hL, hR]
  have key : (m : ℝ) = (k : ℝ) / ((d : ℝ) / 1000000000) := by
    rw [hd', h19]
    field_simp
    ring
  rw [key]

/-- C4 witness: the amended theorem at duration 10 s, mean arrival
200 ms (which divides both one second and the duration), `p5 = 1`,
`p95 = 2`. -/
theorem C4_bandwidth_witness :
    ccafct.Bandwidth 200000000 1 2 =
      ccafct.specBandwidth 10000000000 200000000 1 2 :=
  C4_bandwidth 10000000000 200000000 1 2 (by norm_num) (by norm_num)
    ⟨5, by norm_num⟩ ⟨50, by norm_num⟩

/-- C5 counterexample: `doRequest` drains the response with
`resp.Write(cw)`, which serializes the status line and headers through
the `countWriter` as well.  For a response whose serialized status line
and headers occupy 19 bytes (e.g. a minimal `HTTP/1.1 200 OK` envelope)
and whose body is exactly the requested `n = 1` byte, the recorded
length is 20, not 1. -/
theorem C5_counterexample :
    ccafct.recordedLength (List.replicate 19 72) (List.replicate 1 0) = 20 ∧
    (20 : ℤ) ≠ 1 := by
  exact ⟨by decide, by decide⟩

/-- C5 (amended): for a successful round trip whose response body is
exactly the requested `n` bytes, the byte length recorded in the
`FlowRecord` is `n` plus the byte length of the response's serialized
status line and headers; consequently, with zero failures the sum of
recorded lengths equals the sum of requested lengths plus the summed
per-response envelope overhead. -/
theorem C5_recordedLength (statusAndHeaders body : List UInt8)
    (flows : List (List UInt8 × List UInt8)) :
    ccafct.recordedLength statusAndHeaders body =
      (statusAndHeaders.length : ℤ) + body.length ∧
    (flows.map (fun p => ccafct.recordedLength p.1 p.2)).sum =
      (flows.map (fun p => ((p.1).length : ℤ))).sum +
        (flows.map (fun p => ((p.2).length : ℤ))).sum := by
  have base : ∀ h b : List UInt8,
      ccafct.recordedLength h b = (h.length : ℤ) + b.length := by
    intro h b
    simp [ccafct.recordedLength, ccafct.respWrite, ccafct.countWriter.write]
  refine ⟨base _ _, ?_⟩
  simp only [base]
  rw [List.sum_map_add]

/-- C6: `Analyze` fails with an explicit error exactly when the flow
duration list is empty, and on every non-empty list returns a
`StatsResult` with no error and with every harm field equal to the
"no harm computed" zero value. -/
theorem C6_analyze (durs : List ℝ) :
    ((∃ msg, ccafct.Analyze durs = Except.error msg) ↔ durs = []) ∧
    (durs ≠ [] → ∃ s, ccafct.Analyze durs = Except.ok s ∧
      s.GeoMean.Harm = harm.Harm.val 0 ∧
      s.Median.Harm = harm.Harm.val 0 ∧
      s.P95.Harm = harm.Harm.val 0) := by
  by_cases h : durs = []
  · subst h
    constructor
    · simp [ccafct.Analyze]
    · intro hcontra
      exact absurd rfl hcontra
  · have hlen : ¬ durs.length = 0 := by
      simpa [List.length_eq_zero] using h
    have hok : ccafct.Analyze durs =
        Except.ok
          ⟨ccafct.FCTFromFloat64
              (ccafct.geometricMean (durs.insertionSort (fun a b => a ≤ b))),
            ccafct.FCTFromFloat64
              (ccafct.empiricalQuantile 0.5 (durs.insertionSort (fun a b => a ≤ b))),
            ccafct.FCTFromFloat64
              (ccafct.empiricalQuantile 0.95 (durs.insertionSort (fun a b => a ≤ b)))⟩ := by
      unfold ccafct.Analyze
      rw [if_neg hlen]
    constructor
    · constructor
      · rintro ⟨msg, hmsg⟩
        rw [hok] at hmsg
        exact absurd hmsg (by simp)
      · intro hcontra
        exact absurd hcontra h
    · intro _
      exact ⟨_, hok, rfl, rfl, rfl⟩

/-- C6 witness: on the one-element duration list `[1]`, `Analyze`
returns a result with no error and all harm fields zero. -/
theorem C6_analyze_witness :
    ∃ s, ccafct.Analyze [(1 : ℝ)] = Except.ok s ∧
      s.GeoMean.Harm = harm.Harm.val 0 ∧
      s.Median.Harm = harm.Harm.val 0 ∧
      s.P95.Harm = harm.Harm.val 0 :=
  (C6_analyze [1]).2 (by simp)

/-- The write loop emits chunks that sum to the requested length, each
bounded by the buffer length. -/
theorem writeChunks_sum_le (bufLen : ℕ) (hb : 0 < bufLen) :
    ∀ r, (ccafct.writeChunks bufLen r).sum = r ∧
      ∀ c ∈ ccafct.writeChunks bufLen r, c ≤ bufLen := by
  intro r
  induction r using Nat.strong_induction_on with
  | _ r ih =>
    by_cases hr : r = 0
    · subst hr
      rw [ccafct.writeChunks]
      simp
    · have hcond : ¬ (r = 0 ∨ bufLen = 0) := by omega
      rw [ccafct.writeChunks, dif_neg hcond]
      have hlt : r - min bufLen r < r := by
        have : 0 < min bufLen r := lt_min hb (Nat.pos_of_ne_zero hr)
        omega
      obtain ⟨ihsum, ihle⟩ := ih _ hlt
      constructor
      · rw [List.sum_cons, ihsum]
        omega
      · intro c hc
        rcases List.mem_cons.mp hc with h1 | h2
        · omega
        · exact ihle c h2

/-- C7: for a request to the FCT path (with no CCA header) and a
positive post-`init` buffer length: the handler answers with a
400-class error exactly when the flow-length header is absent (or
empty), non-numeric, or parses to a negative value; when it parses to
`n ≥ 0` the handler streams a body of exactly `n` filler bytes in
chunks each of at most the buffer length. -/
theorem C7_handleFCT (bufLen : ℕ) (hb : 0 < bufLen) (fstr : String) :
    ((∃ msg, ccafct.handleFCT bufLen fstr = ccafct.HandlerResult.badRequest msg) ↔
      (fstr = "" ∨ ccafct.parseInt64 fstr = none ∨
        ∃ n, ccafct.parseInt64 fstr = some n ∧ n < 0)) ∧
    (∀ n : ℤ, ccafct.parseInt64 fstr = some n → 0 ≤ n →
      ccafct.handleFCT bufLen fstr =
        ccafct.HandlerResult.body (ccafct.writeChunks bufLen n.toNat) ∧
      ((ccafct.writeChunks bufLen n.toNat).sum : ℤ) = n ∧
      ∀ c ∈ ccafct.writeChunks bufLen n.toNat, c ≤ bufLen) := by
  have hbody : ∀ n : ℤ, ccafct.parseInt64 fstr = some n → 0 ≤ n →
      ccafct.handleFCT bufLen fstr =
        ccafct.HandlerResult.body (ccafct.writeChunks bufLen n.toNat) := by
    intro n hn hnn
    have hne : fstr ≠ "" := by
      intro he
      rw [he] at hn
      simp [ccafct.parseInt64] at hn
    simp only [ccafct.handleFCT, if_neg hne, hn]
    rw [if_neg (not_lt.mpr hnn)]
  constructor
  · constructor
    · intro ⟨msg, hmsg⟩
      by_cases he : fstr = ""
      · exact Or.inl he
      · cases hp : ccafct.parseInt64 fstr with
        | none => exact Or.inr (Or.inl rfl)
        | some n =>
          by_cases hneg : n < 0
          · exact Or.inr (Or.inr ⟨n, rfl, hneg⟩)
          · rw [hbody n hp (not_lt.mp hneg)] at hmsg
            exact absurd hmsg (by simp)
    · intro h
      by_cases he : fstr = ""
      · exact ⟨"missing header", by unfold ccafct.handleFCT; rw [if_pos he]⟩
      · rcases h with he' | hp | ⟨n, hp, hneg⟩
        · exact absurd he' he
        · exact ⟨"invalid flow length",
            by simp only [ccafct.handleFCT, if_neg he, hp]⟩
        · exact ⟨"invalid flow length",
            by simp only [ccafct.handleFCT, if_neg he, hp, if_pos hneg]⟩
  · intro n hn hnn
    refine ⟨hbody n hn hnn, ?_, (writeChunks_sum_le bufLen hb n.toNat).2⟩
    rw [(writeChunks_sum_le bufLen hb n.toNat).1, Int.toNat_of_nonneg hnn]

/-- C7 witness: a buffer of 3 bytes and a flow-length header of `"7"`
stream exactly 7 bytes in chunks of at most 3. -/
theorem C7_handleFCT_witness :
    ccafct.handleFCT 3 "7" =
      ccafct.HandlerResult.body (ccafct.writeChunks 3 (7 : ℤ).toNat) ∧
    ((ccafct.writeChunks 3 (7 : ℤ).toNat).sum : ℤ) = 7 ∧
    ∀ c ∈ ccafct.writeChunks 3 (7 : ℤ).toNat, c ≤ 3 :=
  (C7_handleFCT 3 (by norm_num) "7").2 7 (by decide) (by decide)

/-- C8: once the executor's error counter is nonzero and its
`IgnoreErrors` flag is unset, `RunCommand` — and each of the `RunSpec`,
`RunSpecf`, `Run`, `Runf` and `Emit` wrappers — skips the submission:
no command is started, the returned job is `nil`, and the executor's
job list and error counter are unchanged. -/
theorem C8_runCommand_gated (e : executor.Executor) (spec : executor.Spec)
    (b : executor.CmdBehavior) (h1 : 0 < e.Errors) (h2 : e.IgnoreErrors = false) :
    executor.runCommand e spec b = (e, none, false) ∧
    executor.RunSpec e spec b = (e, none, false) ∧
    executor.RunSpecf e spec b = (e, none, false) ∧
    executor.Run e b = (e, none, false) ∧
    executor.Runf e b = (e, none, false) ∧
    executor.Emit e b = (e, none, false) := by
  have key : ∀ s : executor.Spec, executor.runCommand e s b = (e, none, false) := by
    intro s
    unfold executor.runCommand
    rw [if_pos ⟨h1, h2⟩]
  exact ⟨key spec, key spec, key spec, key {}, key {}, key {}⟩

/-- C8 witness: an executor with one recorded error and `IgnoreErrors`
unset skips a fresh default submission without any state change. -/
theorem C8_runCommand_gated_witness :
    executor.runCommand ⟨false, false, [], 1, false⟩ {} {} =
      (⟨false, false, [], 1, false⟩, none, false) :=
  (C8_runCommand_gated ⟨false, false, [], 1, false⟩ {} {} (by norm_num) rfl).1

/-- C9 counterexample: a tracked background job with `NoWait` unset, a
nonzero exit status, and its per-job `IgnoreErrors` flag set is joined
by `Wait` but does not contribute to the error counter: the counter
stays 0 instead of becoming 1, refuting "contributing to the error
counter on each nonzero exit". -/
theorem C9_counterexample :
    (executor.Wait
        ⟨false, false, [⟨true, false, true, some "exit status 1", none, false⟩],
          0, false⟩).Errors = 0 ∧
    ((⟨true, false, true, some "exit status 1", none, false⟩ : executor.Job).Background = true ∧
      (⟨true, false, true, some "exit status 1", none, false⟩ : executor.Job).NoWait = false ∧
      (⟨true, false, true, some "exit status 1", none, false⟩ : executor.Job).exitErr ≠ none) ∧
    (0 : ℕ) ≠ 0 + 1 := by
  refine ⟨?_, ⟨rfl, rfl, by simp⟩, by omega⟩
  rfl

/-- C9 (amended): on its first call, `Executor.Wait` joins every
tracked background job not marked `NoWait`, and increases the error
counter by one for each such job with a nonzero exit whose own
`IgnoreErrors` flag is unset; `Wait` is idempotent — a second call
leaves the executor (job list, error counter, and all job states)
unchanged. -/
theorem C9_wait (e : executor.Executor) :
    (e.waited = false →
      (∀ j ∈ (executor.Wait e).Job, j.Background = true → j.NoWait = false →
        j.waitedOn = true) ∧
      (executor.Wait e).Errors = e.Errors +
        e.Job.countP
          (fun j => j.Background && !j.NoWait && j.exitErr.isSome && !j.IgnoreErrors)) ∧
    executor.Wait (executor.Wait e) = executor.Wait e := by
  constructor
  · intro hw
    constructor
    · intro j hj hbg hnw
      unfold executor.Wait at hj
      rw [if_neg (by rw [hw]; exact Bool.false_ne_true)] at hj
      simp only [List.mem_map] at hj
      obtain ⟨j0, _, hj0⟩ := hj
      subst hj0
      unfold executor.waitJob at hbg hnw ⊢
      rcases h0 : j0.Background with _ | _ <;>
        rcases h1 : j0.NoWait with _ | _ <;>
          rcases h2 : j0.exitErr with _ | err <;>
            rcases h3 : j0.IgnoreErrors with _ | _ <;>
              simp_all [executor.waitJob]
    · unfold executor.Wait
      rw [if_neg (by rw [hw]; exact Bool.false_ne_true)]
      simp only
      congr 1
      induction e.Job with
      | nil => rfl
      | cons j t ih =>
        rw [List.map_cons, List.sum_cons, List.countP_cons, ih]
        have : executor.waitErrInc j =
            if (j.Background && !j.NoWait && j.exitErr.isSome && !j.IgnoreErrors) = true
            then 1 else 0 := by
          unfold executor.waitErrInc
          rcases j.Background with _ | _ <;>
            rcases j.NoWait with _ | _ <;>
              rcases hx : j.exitErr with _ | err <;>
                rcases j.IgnoreErrors with _ | _ <;> simp [hx]
        rw [this]
        omega
  · by_cases hw : e.waited
    · have h1 : executor.Wait e = e := by
        unfold executor.Wait
        rw [if_pos hw]
      rw [h1, h1]
    · have h1 : (executor.Wait e).waited = true := by
        unfold executor.Wait
        rw [if_neg hw]
      generalize hE : executor.Wait e = E at h1 ⊢
      unfold executor.Wait
      rw [if_pos h1]

/-- C9 witness: the amended theorem at a concrete fresh executor
tracking one failing background job whose errors are counted. -/
theorem C9_wait_witness :
    ((∀ j ∈ (executor.Wait
          ⟨false, false, [⟨true, false, false, some "exit status 2", none, false⟩],
            0, false⟩).Job,
        j.Background = true → j.NoWait = false → j.waitedOn = true) ∧
      (executor.Wait
          ⟨false, false, [⟨true, false, false, some "exit status 2", none, false⟩],
            0, false⟩).Errors =
        0 + List.countP
          (fun j => j.Background && !j.NoWait && j.exitErr.isSome && !j.IgnoreErrors)
          [(⟨true, false, false, some "exit status 2", none, false⟩ : executor.Job)]) :=
  (C9_wait ⟨false, false, [⟨true, false, false, some "exit status 2", none, false⟩],
    0, false⟩).1 rfl

/-- C10: when a submission is gated out because the error counter is
nonzero and `IgnoreErrors` is unset, `RunCommand` returns the `nil`
job pointer (`none`), and in every other case it returns a non-nil
job. -/
theorem C10_runCommand_nil (e : executor.Executor) (spec : executor.Spec)
    (b : executor.CmdBehavior) :
    ((0 < e.Errors ∧ e.IgnoreErrors = false) →
      (executor.runCommand e spec b).2.1 = none) ∧
    (¬ (0 < e.Errors ∧ e.IgnoreErrors = false) →
      (executor.runCommand e spec b).2.1.isSome = true) := by
  constructor
  · intro h
    unfold executor.runCommand
    rw [if_pos h]
  · intro h
    unfold executor.runCommand
    rw [if_neg h]
    dsimp only
    split_ifs <;>
      cases hb : b.runErr <;>
        simp [executor.failJob, executor.addJob, executor.onError]

/-- C10 witness: gated at one recorded error the returned job is
`none`; with a clean counter the returned job is present. -/
theorem C10_runCommand_nil_witness :
    (executor.runCommand ⟨false, false, [], 1, false⟩ {} {}).2.1 = none ∧
    (executor.runCommand ⟨false, false, [], 0, false⟩ {} {}).2.1.isSome = true :=
  ⟨(C10_runCommand_nil ⟨false, false, [], 1, false⟩ {} {}).1 ⟨by norm_num, rfl⟩,
    (C10_runCommand_nil ⟨false, false, [], 0, false⟩ {} {}).2 (by simp)⟩

